import Mathlib

/-!
Shallow embedding of the Iroha BFT consensus core: view-change proofs
(core/src/sumeragi/view_change.rs), block candidate validation
(data_model/src/block.rs), the transaction lifecycle (iroha/src/tx.rs)
and the peer-session framing and handlers (iroha_p2p/src/peer.rs).

Machine integers are modelled as Nat (no arithmetic in the claims
overflows); Rust panics (unchecked Vec indexing) are modelled by the
Option monad, with `none` standing for a panic; fallible functions
return Except.  Cryptographic primitives (signature verification,
hashing, symmetric ciphers), which live in iroha_crypto and ursa and
are not part of this repository, are passed in as function parameters.
-/

namespace Iroha

/-- Public keys, abstract: only looked up and fed to signature checks. -/
abbrev PublicKey := Nat

/-- Signature values, abstract: only fed to the verification callback. -/
abbrev Sig := Nat

/-- Block hashes, abstract. -/
abbrev BlockHash := Nat

/-- view_change.rs: `ProofPayload { latest_block_hash, view_change_index }`. -/
structure ProofPayload where
  latest_block_hash : Option BlockHash
  view_change_index : Nat
deriving DecidableEq, Repr

/-- Signature verification callback standing for
`SignatureOf::verify(public_key, payload).is_ok()` from iroha_crypto. -/
abbrev SigVerify := PublicKey → ProofPayload → Sig → Bool

/-- view_change.rs: `SignedProof { signatures, payload }` where each
signature entry is `(node_pos: u64, SignatureOf<ProofPayload>)`. -/
structure SignedProof where
  signatures : List (Nat × Sig)
  payload : ProofPayload
deriving DecidableEq, Repr

/-- Modelled from the spec: `Topology` (core/src/sumeragi/network_topology.rs
is not under src/): an ordered sequence of peers; an index dereferences to
that peer public key. -/
structure Topology where
  peers : List PublicKey
deriving DecidableEq, Repr

/-- Modelled from the spec: `Topology::max_faults() = ⌊(n−1)/3⌋`. -/
def Topology.max_faults (t : Topology) : Nat :=
  (t.peers.length - 1) / 3

/-- One step of the filter closure in `SignedProof::verify`:
`topology.as_ref()[node_pos as usize]` panics (`none`) when the position
is out of range, otherwise the signature is checked against that key. -/
def sigEntryOk (sv : SigVerify) (t : Topology) (payload : ProofPayload)
    (e : Nat × Sig) : Option Bool :=
  (t.peers.get? e.1).map (fun pk => sv pk payload e.2)

/-- The `filter(..).count()` of `SignedProof::verify`, propagating the
panic of the unchecked topology indexing. -/
def countValid (sv : SigVerify) (t : Topology) (payload : ProofPayload) :
    List (Nat × Sig) → Option Nat
  | [] => some 0
  | e :: rest => do
    let b ← sigEntryOk sv t payload e
    let n ← countValid sv t payload rest
    pure (if b then n + 1 else n)

/-- view_change.rs `SignedProof::verify`: count the signature entries that
verify against the topology key at their position and compare the count
with `max_faults() + 1`.  `none` models the panic on an out-of-range
`node_pos`. -/
def SignedProof.verify (sv : SigVerify) (p : SignedProof) (t : Topology) :
    Option Bool :=
  (countValid sv t p.payload p.signatures).map
    (fun valid_count => decide (t.max_faults + 1 ≤ valid_count))

/-- view_change.rs `SignedProof::merge_signatures`: verify the incoming
signatures one by one and append the ones that check out.  `none` models
the panic of `topology.as_ref()[node_pos as usize]` on an out-of-range
position. -/
def SignedProof.merge_signatures (sv : SigVerify) (p : SignedProof) :
    List (Nat × Sig) → Topology → Option SignedProof
  | [], _ => some p
  | (pos, sig) :: rest, t => do
    let pk ← t.peers.get? pos
    let p' := if sv pk p.payload sig
      then { p with signatures := p.signatures ++ [(pos, sig)] }
      else p
    SignedProof.merge_signatures sv p' rest t

/-- view_change.rs: `ProofChain(Vec<SignedProof>)`. -/
abbrev ProofChain := List SignedProof

/-- view_change.rs: the `Error` enum returned by chain insertion. -/
inductive VCError
  | BlockHashMismatch
  | ViewChangeNotFound
deriving DecidableEq, Repr

/-- The `take_while` of `ProofChain::verify_with_state`, counting from
position `i`.  The `&&` of the source short-circuits, so `proof.verify`
(and hence its panic) is only reached when the hash and the index both
match. -/
def verifyChainFrom (sv : SigVerify) (t : Topology) (h : Option BlockHash) :
    Nat → List SignedProof → Option Nat
  | _, [] => some 0
  | i, p :: rest =>
    if p.payload.latest_block_hash = h ∧ p.payload.view_change_index = i then
      match SignedProof.verify sv p t with
      | none => none
      | some false => some 0
      | some true => (verifyChainFrom sv t h (i + 1) rest).map (· + 1)
    else some 0

/-- view_change.rs `ProofChain::verify_with_state`: length of the longest
prefix whose entries match the latest block hash, carry their own index,
and verify under the topology. -/
def ProofChain.verify_with_state (sv : SigVerify) (c : ProofChain)
    (t : Topology) (h : Option BlockHash) : Option Nat :=
  verifyChainFrom sv t h 0 c

/-- The `take_while` count of `ProofChain::prune` (hash and index only,
signatures not re-verified). -/
def pruneCount (h : Option BlockHash) : Nat → List SignedProof → Nat
  | _, [] => 0
  | i, p :: rest =>
    if p.payload.latest_block_hash = h ∧ p.payload.view_change_index = i then
      pruneCount h (i + 1) rest + 1
    else 0

/-- view_change.rs `ProofChain::prune`: truncate to the longest prefix
matching the hash and the running index. -/
def ProofChain.prune (c : ProofChain) (h : Option BlockHash) : ProofChain :=
  c.take (pruneCount h 0 c)

/-- view_change.rs `ProofChain::insert_proof`.  `none` models a panic
inside `verify_with_state` or `merge_signatures`. -/
def ProofChain.insert_proof (sv : SigVerify) (c : ProofChain)
    (new_proof : SignedProof) (t : Topology) (h : Option BlockHash) :
    Option (Except VCError ProofChain) :=
  if new_proof.payload.latest_block_hash ≠ h then
    some (.error .BlockHashMismatch)
  else do
    let k ← ProofChain.verify_with_state sv c t h
    if new_proof.payload.view_change_index ≠ k then
      pure (.error .ViewChangeNotFound)
    else if hk : k < c.length then do
      let merged ← SignedProof.merge_signatures sv (c.get ⟨k, hk⟩)
        new_proof.signatures t
      pure (.ok (c.set k merged))
    else
      pure (.ok (c ++ [new_proof]))

/-- view_change.rs `ProofChain::merge`: prune the incoming chain, then act
on the four cases of `(k < len self, k < len other)`. -/
def ProofChain.merge (sv : SigVerify) (c other : ProofChain) (t : Topology)
    (h : Option BlockHash) : Option (Except VCError ProofChain) :=
  let other' := ProofChain.prune other h
  if other'.isEmpty then some (.error .BlockHashMismatch)
  else do
    let k ← ProofChain.verify_with_state sv c t h
    if hself : k < c.length then
      if hother : k < other'.length then do
        let merged ← SignedProof.merge_signatures sv (c.get ⟨k, hself⟩)
          (other'.get ⟨k, hother⟩).signatures t
        pure (.ok (c.set k merged))
      else
        pure (.error .ViewChangeNotFound)
    else
      if hother : k < other'.length then
        pure (.ok (c ++ [other'.get ⟨k, hother⟩]))
      else
        pure (.ok c)

/-- Spec-side predicate: an entry is valid when its position is in range
and its signature verifies there (out of range counts as invalid, the
behaviour the spec asks for). -/
def entryValid (sv : SigVerify) (t : Topology) (payload : ProofPayload)
    (e : Nat × Sig) : Bool :=
  match t.peers.get? e.1 with
  | some pk => sv pk payload e.2
  | none => false

/-- Spec-side count for the quorum rule as the spec words it: the number
of DISTINCT node_pos values carrying a valid signature. -/
def distinctValidPos (sv : SigVerify) (t : Topology) (p : SignedProof) : Nat :=
  ((p.signatures.filter (entryValid sv t p.payload)).map Prod.fst).dedup.length

/-- Spec-side verify, following the spec words of the quorum rule
(distinct signers, each node_pos counted at most once). -/
def specVerify (sv : SigVerify) (t : Topology) (p : SignedProof) : Bool :=
  t.max_faults + 1 ≤ distinctValidPos sv t p

/-- Count of valid signature ENTRIES, with multiplicity: this is what the
source `filter(..).count()` computes when every position is in range. -/
def countValidEntries (sv : SigVerify) (t : Topology) (p : SignedProof) : Nat :=
  (p.signatures.filter (entryValid sv t p.payload)).length

/-! ## Block model (data_model/src/block.rs) -/

/-- Transaction values inside a block payload, abstract: the candidate
check only maps them through a hash function. -/
abbrev Tx := Nat

/-- Transaction hashes, abstract. -/
abbrev TxHash := Nat

/-- block.rs: `BlockHeader`. -/
structure BlockHeader where
  height : Nat
  previous_block_hash : Option BlockHash
  transactions_hash : Option TxHash
  timestamp_ms : Nat
  view_change_index : Nat
  consensus_estimation_ms : Nat
deriving DecidableEq, Repr

/-- block.rs: `BlockPayload` (commit topology and event recommendations
kept abstract; the candidate check never inspects them). -/
structure BlockPayload where
  header : BlockHeader
  commit_topology : List Nat
  transactions : List Tx
  event_recommendations : List Nat
deriving DecidableEq, Repr

/-- block.rs: `SignedBlockCandidate`, the raw decoded shape before
validation. -/
structure SignedBlockCandidate where
  signatures : List (Nat × Sig)
  payload : BlockPayload
deriving DecidableEq, Repr

/-- block.rs: `SignedBlockV1`, only obtainable through candidate
validation. -/
structure SignedBlockV1 where
  signatures : List (Nat × Sig)
  payload : BlockPayload
deriving DecidableEq, Repr

/-- The two static error strings of `SignedBlockCandidate::validate`. -/
inductive BlockError
  /-- The source string starting with: Transactions hash incorrect. -/
  | TransactionsHashIncorrect
  /-- The source string: Block is empty. -/
  | BlockIsEmpty
deriving DecidableEq, Repr

/-- Modelled from the spec: one level of iroha_crypto::MerkleTree (not
under src/): hashes combined pairwise, an odd trailing leaf duplicated. -/
def merkleLevel (comb : Nat → Nat → Nat) : List Nat → List Nat
  | [] => []
  | [a] => [comb a a]
  | a :: b :: rest => comb a b :: merkleLevel comb rest

/-- Modelled from the spec: fold merkle levels down to the root; the fuel
(first argument) is an upper bound on the number of levels and is never
exhausted when instantiated with the leaf count. -/
def merkleRootGo (comb : Nat → Nat → Nat) : Nat → List Nat → Nat
  | _, [] => 0
  | _, [a] => a
  | 0, _ :: _ :: _ => 0
  | fuel + 1, a :: b :: rest => merkleRootGo comb fuel (merkleLevel comb (a :: b :: rest))

/-- Modelled from the spec: the merkle root of a list of leaf hashes;
absent exactly for the empty tree (the collected `MerkleTree::hash()`). -/
def merkleRoot (comb : Nat → Nat → Nat) (l : List Nat) : Option Nat :=
  match l with
  | [] => none
  | _ :: _ => some (merkleRootGo comb l.length l)

/-- block.rs `SignedBlockCandidate::validate_header`: recompute the merkle
root of the transaction hashes and compare with the header field.
`txh` stands for `TransactionValue::as_ref().hash()` from iroha_crypto. -/
def SignedBlockCandidate.validate_header (txh : Tx → TxHash)
    (comb : Nat → Nat → Nat) (c : SignedBlockCandidate) :
    Except BlockError Unit :=
  let actual_txs_hash := c.payload.header.transactions_hash
  let expected_txs_hash := merkleRoot comb (c.payload.transactions.map txh)
  if expected_txs_hash ≠ actual_txs_hash then
    .error .TransactionsHashIncorrect
  else
    .ok ()

/-- block.rs `SignedBlockCandidate::validate`: the header check runs
first, then the emptiness check. -/
def SignedBlockCandidate.validate (txh : Tx → TxHash)
    (comb : Nat → Nat → Nat) (c : SignedBlockCandidate) :
    Except BlockError SignedBlockV1 :=
  match SignedBlockCandidate.validate_header txh comb c with
  | .error e => .error e
  | .ok () =>
    if c.payload.transactions.isEmpty then
      .error .BlockIsEmpty
    else
      .ok ⟨c.signatures, c.payload⟩

/-! ## Transaction lifecycle (iroha/src/tx.rs) -/

/-- Account identifiers, abstract: only compared with the genesis
account. -/
abbrev AccountId := Nat

/-- Instructions, abstract: only handed to the execution callback. -/
abbrev Instruction := Nat

/-- Modelled from the spec: the transaction `Payload`
(data_model transaction module is not under src/), with the fields
tx.rs reads. -/
structure Payload where
  account_id : AccountId
  instructions : List Instruction
  creation_time : Nat
  time_to_live_ms : Nat
deriving DecidableEq, Repr

/-- Modelled from the spec: a signed `Transaction` as accepted from the
client (data_model transaction module is not under src/). -/
structure Transaction where
  payload : Payload
  signatures : List Sig
deriving DecidableEq, Repr

/-- tx.rs: `AcceptedTransaction { payload, signatures }`. -/
structure AcceptedTransaction where
  payload : Payload
  signatures : List Sig
deriving DecidableEq, Repr

/-- tx.rs: `ValidTransaction { payload, signatures }`. -/
structure ValidTransaction where
  payload : Payload
  signatures : List Sig
deriving DecidableEq, Repr

/-- tx.rs: `TransactionRejectionReason` (from the data model), the reason
taxonomy carried by a rejected transaction. -/
inductive TransactionRejectionReason
  | UnexpectedGenesisAccountSignature
  | SignatureVerification (signature : Sig) (reason : String)
  | UnsatisfiedSignatureCondition (reason : String)
  | InstructionExecution (instruction : Instruction) (reason : String)
  | NotPermitted (reason : String)
deriving DecidableEq, Repr

/-- Modelled from the spec: `RejectedTransaction` (data_model transaction
module is not under src/): payload and signatures plus the terminal
rejection reason. -/
structure RejectedTransaction where
  payload : Payload
  signatures : List Sig
  rejection_reason : TransactionRejectionReason
deriving DecidableEq, Repr

/-- tx.rs `Transaction::hash` as used by `from_transaction` and per the
spec hash-stability law: the hash of the payload.  `hf` stands for the
composition of the canonical payload encoding with `Hash::new`. -/
def Transaction.hash (hf : Payload → TxHash) (tx : Transaction) : TxHash :=
  hf tx.payload

/-- tx.rs `AcceptedTransaction::hash`: `Hash::new(payload bytes)`. -/
def AcceptedTransaction.hash (hf : Payload → TxHash)
    (tx : AcceptedTransaction) : TxHash :=
  hf tx.payload

/-- tx.rs `ValidTransaction::hash`: `Hash::new(payload bytes)`. -/
def ValidTransaction.hash (hf : Payload → TxHash)
    (tx : ValidTransaction) : TxHash :=
  hf tx.payload

/-- Modelled from the spec: `RejectedTransaction::hash` (not under src/),
equal to the hash of the payload like the other states. -/
def RejectedTransaction.hash (hf : Payload → TxHash)
    (tx : RejectedTransaction) : TxHash :=
  hf tx.payload

/-- Modelled from the spec: `Payload::check_instruction_len` (data_model
transaction module is not under src/): fail when the instruction count
exceeds the bound. -/
def check_instruction_len (p : Payload) (max_instruction_number : Nat) :
    Except String Unit :=
  if max_instruction_number < p.instructions.length then
    .error "Too many instructions in payload"
  else
    .ok ()

/-- First signature that fails verification, with its reason; `sverr`
stands for `Signature::verify(hash bytes)` from iroha_crypto. -/
def firstSigFail (sverr : Sig → TxHash → Except String Unit) (h : TxHash) :
    List Sig → Option (Sig × String)
  | [] => none
  | s :: rest =>
    match sverr s h with
    | .error r => some (s, r)
    | .ok () => firstSigFail sverr h rest

/-- tx.rs `AcceptedTransaction::from_transaction`: instruction-count
check, then verify every signature against the transaction hash. -/
def AcceptedTransaction.from_transaction (hf : Payload → TxHash)
    (sverr : Sig → TxHash → Except String Unit) (tx : Transaction)
    (max_instruction_number : Nat) : Except String AcceptedTransaction :=
  match check_instruction_len tx.payload max_instruction_number with
  | .error e => .error e
  | .ok () =>
    match firstSigFail sverr (Transaction.hash hf tx) tx.signatures with
    | some _ => .error "Failed to verify signatures"
    | none => .ok ⟨tx.payload, tx.signatures⟩

/-- The instruction loop of `validate_internal`: execute on the running
clone, and (outside genesis) run the permission check against the
ORIGINAL world state. -/
def execInstructions {W : Type} (exec : Instruction → AccountId → W → Except String W)
    (permCheck : AccountId → Instruction → W → Except String Unit)
    (is_genesis : Bool) (acc : AccountId) (wsvOrig : W) :
    List Instruction → W → Except TransactionRejectionReason W
  | [], wtemp => .ok wtemp
  | i :: rest, wtemp =>
    match exec i acc wtemp with
    | .error r => .error (.InstructionExecution i r)
    | .ok w' =>
      if is_genesis then
        execInstructions exec permCheck is_genesis acc wsvOrig rest w'
      else
        match permCheck acc i wsvOrig with
        | .error r => .error (.NotPermitted r)
        | .ok () => execInstructions exec permCheck is_genesis acc wsvOrig rest w'

/-- tx.rs `AcceptedTransaction::validate_internal`: genesis guard,
signature re-verification, signature condition, then the instruction
loop on a clone of the world state.  `sigCond` stands for
`check_signature_condition` (accounts and expression evaluation are
external collaborators). -/
def AcceptedTransaction.validate_internal {W : Type} (hf : Payload → TxHash)
    (sverr : Sig → TxHash → Except String Unit)
    (sigCond : AcceptedTransaction → W → Except String Bool)
    (exec : Instruction → AccountId → W → Except String W)
    (permCheck : AccountId → Instruction → W → Except String Unit)
    (genesisAcc : AccountId) (tx : AcceptedTransaction) (wsv : W)
    (is_genesis : Bool) : Except TransactionRejectionReason Unit :=
  if !is_genesis && tx.payload.account_id == genesisAcc then
    .error .UnexpectedGenesisAccountSignature
  else
    match firstSigFail sverr (AcceptedTransaction.hash hf tx) tx.signatures with
    | some (s, r) => .error (.SignatureVerification s r)
    | none =>
      match sigCond tx wsv with
      | .ok true =>
        match execInstructions exec permCheck is_genesis tx.payload.account_id
            wsv tx.payload.instructions wsv with
        | .ok _ => .ok ()
        | .error r => .error r
      | .ok false =>
        .error (.UnsatisfiedSignatureCondition "Signature condition not satisfied.")
      | .error r => .error (.UnsatisfiedSignatureCondition r)

/-- tx.rs `AcceptedTransaction::reject`: carry payload and signatures
into the terminal rejected state. -/
def AcceptedTransaction.reject (tx : AcceptedTransaction)
    (rejection_reason : TransactionRejectionReason) : RejectedTransaction :=
  ⟨tx.payload, tx.signatures, rejection_reason⟩

/-- tx.rs `AcceptedTransaction::validate`: package `validate_internal`
success as a `ValidTransaction`, failure through `reject`. -/
def AcceptedTransaction.validate {W : Type} (hf : Payload → TxHash)
    (sverr : Sig → TxHash → Except String Unit)
    (sigCond : AcceptedTransaction → W → Except String Bool)
    (exec : Instruction → AccountId → W → Except String W)
    (permCheck : AccountId → Instruction → W → Except String Unit)
    (genesisAcc : AccountId) (tx : AcceptedTransaction) (wsv : W)
    (is_genesis : Bool) : Except RejectedTransaction ValidTransaction :=
  match AcceptedTransaction.validate_internal hf sverr sigCond exec permCheck
      genesisAcc tx wsv is_genesis with
  | .ok () => .ok ⟨tx.payload, tx.signatures⟩
  | .error reason => .error (AcceptedTransaction.reject tx reason)

/-- The instruction loop of `ValidTransaction::proceed`, threading the
cloned world state. -/
def proceedList {W : Type} (exec : Instruction → AccountId → W → Except String W)
    (acc : AccountId) : List Instruction → W → Except String W
  | [], w => .ok w
  | i :: rest, w =>
    match exec i acc w with
    | .error e => .error e
    | .ok w' => proceedList exec acc rest w'

/-- tx.rs `ValidTransaction::proceed`: run the instructions on a clone of
the world state and assign the clone back only on complete success.  The
second component is the world state after the call (`&mut` parameter). -/
def ValidTransaction.proceed {W : Type}
    (exec : Instruction → AccountId → W → Except String W)
    (tx : ValidTransaction) (wsv : W) : Except String Unit × W :=
  match proceedList exec tx.payload.account_id tx.payload.instructions wsv with
  | .ok w' => (.ok (), w')
  | .error e => (.error e, wsv)

/-! ## Peer session framing and handlers (iroha_p2p/src/peer.rs) -/

/-- Wire bytes (values below 256 where it matters). -/
abbrev Byte := Nat

/-- peer.rs: `MAX_MESSAGE_LENGTH = 2 * 1024 * 1024`. -/
def MAX_MESSAGE_LENGTH : Nat := 2 * 1024 * 1024

/-- peer.rs: the transport `Error` enum. -/
inductive PeerError
  | Io
  | Format
  | Handshake
  | Keys
deriving DecidableEq, Repr

/-- Big-endian u32 encoding, as written by tokio `write_u32`. -/
def u32be (n : Nat) : List Byte :=
  [n / 2 ^ 24 % 256, n / 2 ^ 16 % 256, n / 2 ^ 8 % 256, n % 256]

/-- Big-endian u32 decoding, as read by tokio `read_u32`; `none` models
the io error when fewer than four bytes remain on the stream. -/
def readU32 : List Byte → Option (Nat × List Byte)
  | b0 :: b1 :: b2 :: b3 :: rest =>
    some (b0 * 2 ^ 24 + b1 * 2 ^ 16 + b2 * 2 ^ 8 + b3, rest)
  | _ => none

/-- peer.rs `send_message`: refuse payloads longer than
`MAX_MESSAGE_LENGTH`, otherwise emit the length-prefixed frame. -/
def send_message (data : List Byte) : Except PeerError (List Byte) :=
  if MAX_MESSAGE_LENGTH < data.length then
    .error .Format
  else
    .ok (u32be data.length ++ data)

/-- peer.rs `read_message`: read the u32 length, accept only
`0 < size < MAX_MESSAGE_LENGTH`, then read exactly `size` bytes.
Returns the message and the unread remainder of the stream. -/
def read_message (stream : List Byte) : Except PeerError (List Byte × List Byte) :=
  match readU32 stream with
  | none => .error .Io
  | some (size, rest) =>
    if 0 < size ∧ size < MAX_MESSAGE_LENGTH then
      if size ≤ rest.length then
        .ok (rest.take size, rest.drop size)
      else
        .error .Io
    else
      .error .Format

/-- peer.rs: the session `State` enum. -/
inductive PState
  | Connecting
  | ConnectedTo
  | ConnectedFrom
  | Ready
  | Error
deriving DecidableEq, Repr

/-- The fields of `Peer` the two message handlers consult: the state, the
presence of the write half, and the presence of the installed cipher. -/
structure PeerSt where
  state : PState
  hasWrite : Bool
  hasCipher : Bool
deriving DecidableEq, Repr

/-- peer.rs `impl Handler<Post<T>> for Peer`: bail when no write half,
encrypt when a cipher is installed (`enc` stands for
`encrypt_easy(DEFAULT_AAD, ..)`), then `send_message`; `ioOk` stands for
the success of the socket write.  The second component is the frame put
on the wire, `none` when nothing was sent. -/
def Peer.handlePost (enc : List Byte → Except String (List Byte))
    (ioOk : Bool) (p : PeerSt) (encodedData : List Byte) :
    PeerSt × Option (List Byte) :=
  if p.hasWrite = false then
    (p, none)
  else
    match (if p.hasCipher then enc encodedData else .ok encodedData) with
    | .error _ => ({ p with state := .Error }, none)
    | .ok data =>
      match send_message data with
      | .error _ => ({ p with state := .Error }, none)
      | .ok frame =>
        if ioOk then (p, some frame) else ({ p with state := .Error }, none)

/-- peer.rs `impl Handler<MessageResult> for Peer`: drop read errors,
decrypt when a cipher is installed (`dec` stands for
`decrypt_easy(DEFAULT_AAD, ..)`), decode, and forward the decoded value
to the network actor.  The second component is the forwarded message,
`none` when nothing was forwarded. -/
def Peer.handleMessage {T : Type} (dec : List Byte → Except String (List Byte))
    (decodeFn : List Byte → Except String T) (p : PeerSt)
    (msg : Except PeerError (List Byte)) : PeerSt × Option T :=
  match msg with
  | .error _ => (p, none)
  | .ok bytes =>
    match (if p.hasCipher then dec bytes else .ok bytes) with
    | .error _ => ({ p with state := .Error }, none)
    | .ok data =>
      match decodeFn data with
      | .ok t => (p, some t)
      | .error _ => (p, none)

/-! ## Concrete inputs used by witnesses and counterexamples -/

/-- Concrete signature check: a signature is valid exactly when it equals
the public key it is checked against. -/
def svW : SigVerify := fun pk _ s => s == pk

/-- Four-peer topology (max_faults 1, view-change quorum 2). -/
def topo4 : Topology := ⟨[10, 11, 12, 13]⟩

/-- One-peer topology (only node position 0 exists). -/
def topo1 : Topology := ⟨[10]⟩

/-- A proof carrying the SAME valid signature of node position 0 twice. -/
def dupProof : SignedProof := ⟨[(0, 10), (0, 10)], ⟨none, 0⟩⟩

/-- A proof carrying a signature at the out-of-range node position 1 for
`topo1`. -/
def badPosProof : SignedProof := ⟨[(1, 10)], ⟨none, 0⟩⟩

/-- A proof with no signatures yet. -/
def emptyProof : SignedProof := ⟨[], ⟨none, 0⟩⟩

/-- A proof for view change 0 validly signed by peers 1 and 2 of
`topo4`. -/
def okProof : SignedProof := ⟨[(1, 11), (2, 12)], ⟨none, 0⟩⟩

/-! ## View-change theorems -/

/-- When every referenced node position is in range, the panic-free count
of `SignedProof::verify` is the entry count with multiplicity. -/
theorem countValid_eq_entries (sv : SigVerify) (t : Topology)
    (payload : ProofPayload) :
    ∀ l : List (Nat × Sig), (∀ e ∈ l, e.1 < t.peers.length) →
      countValid sv t payload l =
        some (l.filter (entryValid sv t payload)).length := by
  intro l
  induction l with
  | nil => intro _; rfl
  | cons e rest ih =>
    intro hin
    have hpos : e.1 < t.peers.length := hin e (List.mem_cons_self e rest)
    have hrest := ih (fun x hx => hin x (List.mem_cons_of_mem e hx))
    obtain ⟨pk, hpk⟩ : ∃ pk, t.peers.get? e.1 = some pk :=
      ⟨t.peers.get ⟨e.1, hpos⟩, List.get?_eq_get hpos⟩
    have hval : entryValid sv t payload e = sv pk payload e.2 := by
      unfold entryValid
      rw [hpk]
    simp only [countValid, sigEntryOk, hpk, Option.map_some', Option.bind_eq_bind,
      Option.some_bind, hrest, List.filter_cons, hval]
    cases hb : sv pk payload e.2 <;> simp [hb]

/-- Claim C1, counterexample: with four peers (quorum 2) a proof holding
the SAME valid signature of node position 0 twice passes
`SignedProof::verify`, although only one distinct node position carries a
valid signature — duplicate entries are NOT counted at most once. -/
theorem vc_quorum_distinct_cex :
    SignedProof.verify svW dupProof topo4 = some true ∧
    specVerify svW topo4 dupProof = false ∧
    distinctValidPos svW topo4 dupProof = 1 ∧
    Topology.max_faults topo4 + 1 = 2 := by
  decide

/-- Claim C1, amended: when every referenced node position is in range,
`SignedProof::verify` returns true iff at least `max_faults() + 1`
signature ENTRIES verify, counted WITH multiplicity — duplicate
`(node_pos, sig)` entries each count. -/
theorem vc_quorum_entries (sv : SigVerify) (t : Topology) (p : SignedProof)
    (hin : ∀ e ∈ p.signatures, e.1 < t.peers.length) :
    SignedProof.verify sv p t =
      some (decide (t.max_faults + 1 ≤ countValidEntries sv t p)) := by
  unfold SignedProof.verify countValidEntries
  rw [countValid_eq_entries sv t p.payload p.signatures hin]
  rfl

/-- Claim C1 witness: the amended statement evaluated on the duplicated
proof over the four-peer topology. -/
theorem vc_quorum_entries_witness :
    SignedProof.verify svW dupProof topo4 =
      some (decide (Topology.max_faults topo4 + 1 ≤
        countValidEntries svW topo4 dupProof)) :=
  vc_quorum_entries svW topo4 dupProof (by decide)

/-- Claim C2: a signature at an out-of-range node position makes
`SignedProof::verify`, `SignedProof::merge_signatures`,
`ProofChain::insert_proof` and `ProofChain::merge` PANIC (modelled as
`none`) through the unchecked `topology.as_ref()[node_pos as usize]`,
instead of treating the signature as invalid. -/
theorem vc_out_of_range_panics :
    SignedProof.verify svW badPosProof topo1 = none ∧
    SignedProof.merge_signatures svW emptyProof [(1, 10)] topo1 = none ∧
    ProofChain.insert_proof svW [badPosProof] emptyProof topo1 none = none ∧
    ProofChain.merge svW [badPosProof] [emptyProof] topo1 none = none :=
  ⟨rfl, rfl, rfl, rfl⟩

/-- Claim C3: `ProofChain::insert_proof` reports `BlockHashMismatch` on a
stale hash; otherwise, with `k = verify_with_state(..)`, reports
`ViewChangeNotFound` when the view-change index differs from `k`;
otherwise merges the incoming signatures into slot `k` when `k` is an
existing slot and appends the proof when the chain is complete. -/
theorem vc_insert_proof_cases (sv : SigVerify) (c : ProofChain)
    (p : SignedProof) (t : Topology) (h : Option BlockHash) (k : Nat)
    (hk : ProofChain.verify_with_state sv c t h = some k) :
    (p.payload.latest_block_hash ≠ h →
      ProofChain.insert_proof sv c p t h = some (.error .BlockHashMismatch)) ∧
    (p.payload.latest_block_hash = h → p.payload.view_change_index ≠ k →
      ProofChain.insert_proof sv c p t h = some (.error .ViewChangeNotFound)) ∧
    (p.payload.latest_block_hash = h → p.payload.view_change_index = k →
      (∀ hlt : k < c.length,
        ProofChain.insert_proof sv c p t h =
          (SignedProof.merge_signatures sv (c.get ⟨k, hlt⟩) p.signatures t).map
            (fun m => .ok (c.set k m))) ∧
      (c.length ≤ k →
        ProofChain.insert_proof sv c p t h = some (.ok (c ++ [p])))) := by
  refine ⟨?_, ?_, ?_⟩
  · intro hne
    simp [ProofChain.insert_proof, hne]
  · intro heq hni
    simp [ProofChain.insert_proof, heq, hk, hni]
  · intro heq hidx
    constructor
    · intro hlt
      simp only [ProofChain.insert_proof, heq, ne_eq, not_true_eq_false, if_false,
        hk, Option.bind_eq_bind, Option.some_bind, hidx, not_false_eq_true,
        dif_pos hlt]
      cases SignedProof.merge_signatures sv (c.get ⟨k, hlt⟩) p.signatures t <;>
        simp
    · intro hge
      have hnlt : ¬ k < c.length := Nat.not_lt.mpr hge
      simp [ProofChain.insert_proof, heq, hk, hidx, hnlt]

/-- Claim C3 witness: appending the first proof to an empty chain. -/
theorem vc_insert_proof_cases_witness :
    ProofChain.insert_proof svW [] okProof topo4 none = some (.ok [okProof]) := by
  have h := (vc_insert_proof_cases svW [] okProof topo4 none 0 (by decide)).2.2
    (by decide) (by decide)
  simpa using h.2 (Nat.le_refl 0)

end Iroha

namespace Iroha

/-! ## Concrete block inputs -/

/-- Concrete transaction hash used by block witnesses: the identity. -/
def txhW : Tx → TxHash := fun t => t

/-- Concrete pairwise merkle combiner used by block witnesses. -/
def combW : Nat → Nat → Nat := fun a b => 2 * a + 3 * b + 1

/-- Header of the valid one-transaction block: `merkleRoot combW [5] = some 5`. -/
def goodHeader : BlockHeader := ⟨1, none, some 5, 0, 0, 0⟩

/-- A candidate that validates: one transaction, matching merkle root. -/
def goodCand : SignedBlockCandidate := ⟨[], ⟨goodHeader, [], [5], []⟩⟩

/-- The block produced by validating `goodCand`. -/
def goodBlock : SignedBlockV1 := ⟨[], ⟨goodHeader, [], [5], []⟩⟩

/-- `goodCand` with all transactions removed and the header unchanged. -/
def emptiedCand : SignedBlockCandidate := ⟨[], ⟨goodHeader, [], [], []⟩⟩

/-! ## Block candidate theorems -/

/-- Claim C4: candidate validation succeeds iff the transaction list is
non-empty and the recomputed merkle root equals the header field; every
block it produces satisfies the merkle invariant and is non-empty. -/
theorem block_decode_iff (txh : Tx → TxHash) (comb : Nat → Nat → Nat)
    (c : SignedBlockCandidate) :
    ((∃ b, SignedBlockCandidate.validate txh comb c = .ok b) ↔
      (c.payload.transactions ≠ [] ∧
        merkleRoot comb (c.payload.transactions.map txh) =
          c.payload.header.transactions_hash)) ∧
    (∀ b, SignedBlockCandidate.validate txh comb c = .ok b →
      merkleRoot comb (b.payload.transactions.map txh) =
        b.payload.header.transactions_hash ∧
      b.payload.transactions ≠ []) := by
  by_cases hroot : merkleRoot comb (c.payload.transactions.map txh) =
      c.payload.header.transactions_hash
  · by_cases hemp : c.payload.transactions = []
    · rw [hemp] at hroot
      simp only [List.map_nil] at hroot
      constructor
      · simp [SignedBlockCandidate.validate, SignedBlockCandidate.validate_header,
          hroot, hemp]
      · intro b hb
        simp [SignedBlockCandidate.validate, SignedBlockCandidate.validate_header,
          hroot, hemp] at hb
    · have hemp' : c.payload.transactions.isEmpty = false := by
        simpa [List.isEmpty_iff] using hemp
      constructor
      · simp [SignedBlockCandidate.validate, SignedBlockCandidate.validate_header,
          hroot, hemp', hemp]
      · intro b hb
        simp [SignedBlockCandidate.validate, SignedBlockCandidate.validate_header,
          hroot, hemp'] at hb
        subst hb
        exact ⟨hroot, hemp⟩
  · constructor
    · constructor
      · intro hex
        obtain ⟨b, hb⟩ := hex
        simp [SignedBlockCandidate.validate, SignedBlockCandidate.validate_header,
          hroot] at hb
      · intro hcond
        exact absurd hcond.2 hroot
    · intro b hb
      simp [SignedBlockCandidate.validate, SignedBlockCandidate.validate_header,
        hroot] at hb

/-- Claim C4 witness: the one-transaction candidate validates and its
block satisfies the invariant. -/
theorem block_decode_iff_witness :
    merkleRoot combW (goodBlock.payload.transactions.map txhW) =
      goodBlock.payload.header.transactions_hash ∧
    goodBlock.payload.transactions ≠ [] :=
  (block_decode_iff txhW combW goodCand).2 goodBlock rfl

/-- Claim C5, counterexample: removing all transactions from a valid
block while leaving the header unchanged makes validation fail with the
header error (Transactions hash incorrect), NOT with Block is empty,
because `validate_header` runs before the emptiness check. -/
theorem block_empty_error_cex :
    SignedBlockCandidate.validate txhW combW goodCand = .ok goodBlock ∧
    SignedBlockCandidate.validate txhW combW emptiedCand =
      .error .TransactionsHashIncorrect ∧
    SignedBlockCandidate.validate txhW combW emptiedCand ≠
      .error .BlockIsEmpty := by
  refine ⟨rfl, rfl, ?_⟩
  intro h
  have h' : (Except.error .TransactionsHashIncorrect :
      Except BlockError SignedBlockV1) = .error .BlockIsEmpty := h
  exact absurd (Except.error.inj h') (by decide)

/-- Claim C5, amended: a candidate with an empty transaction list always
fails to validate; the error is Block is empty exactly when the header
merkle field is absent, and Transactions hash incorrect otherwise (in
particular when the header still carries the root of the removed
transactions). -/
theorem block_empty_rejected (txh : Tx → TxHash) (comb : Nat → Nat → Nat)
    (c : SignedBlockCandidate) (hemp : c.payload.transactions = []) :
    SignedBlockCandidate.validate txh comb c =
      (if c.payload.header.transactions_hash = none then
        .error .BlockIsEmpty
      else
        .error .TransactionsHashIncorrect) := by
  cases hh : c.payload.header.transactions_hash with
  | none =>
    simp [SignedBlockCandidate.validate, SignedBlockCandidate.validate_header,
      hemp, hh, merkleRoot]
  | some r =>
    simp [SignedBlockCandidate.validate, SignedBlockCandidate.validate_header,
      hemp, hh, merkleRoot]

/-- Claim C5 witness: the emptied candidate fails with the header
error. -/
theorem block_empty_rejected_witness :
    SignedBlockCandidate.validate txhW combW emptiedCand =
      .error .TransactionsHashIncorrect := by
  rw [block_empty_rejected txhW combW emptiedCand rfl]
  rfl

end Iroha

namespace Iroha

/-! ## Concrete transaction inputs -/

/-- Concrete payload hash for transaction witnesses. -/
def hfW : Payload → TxHash := fun p => p.account_id + 7 * p.instructions.length

/-- Concrete structural signature check: always passes. -/
def sverrW : Sig → TxHash → Except String Unit := fun _ _ => .ok ()

/-- Concrete signature condition: satisfied. -/
def sigCondW : AcceptedTransaction → Nat → Except String Bool := fun _ _ => .ok true

/-- Concrete instruction execution over `W = Nat`: instruction 2 fails,
everything else increments the state. -/
def execW : Instruction → AccountId → Nat → Except String Nat :=
  fun i _ w => if i = 2 then .error "boom" else .ok (w + 1)

/-- Concrete permission check: always allowed. -/
def permCheckW : AccountId → Instruction → Nat → Except String Unit :=
  fun _ _ _ => .ok ()

/-- A transaction with one succeeding instruction. -/
def txW : Transaction := ⟨⟨0, [1], 0, 0⟩, []⟩

/-- The accepted form of `txW`. -/
def accTxW : AcceptedTransaction := ⟨⟨0, [1], 0, 0⟩, []⟩

/-- The valid form of `txW`. -/
def validTxOkW : ValidTransaction := ⟨⟨0, [1], 0, 0⟩, []⟩

/-- A valid transaction whose second instruction fails under `execW`. -/
def validTxW : ValidTransaction := ⟨⟨0, [1, 2], 0, 0⟩, []⟩

/-! ## Transaction lifecycle theorems -/

/-- Claim C6: `ValidTransaction::proceed` is atomic — on an instruction
failure the returned world state is exactly the input one, and on
success it is the sequential execution of all instructions from the
input state. -/
theorem tx_proceed_atomic {W : Type}
    (exec : Instruction → AccountId → W → Except String W)
    (tx : ValidTransaction) (wsv : W) :
    (∀ e w, ValidTransaction.proceed exec tx wsv = (.error e, w) → w = wsv) ∧
    (∀ w, ValidTransaction.proceed exec tx wsv = (.ok (), w) →
      proceedList exec tx.payload.account_id tx.payload.instructions wsv =
        .ok w) := by
  constructor
  · intro e w h
    unfold ValidTransaction.proceed at h
    cases hp : proceedList exec tx.payload.account_id tx.payload.instructions wsv with
    | ok w' =>
      rw [hp] at h
      simp at h
    | error e' =>
      rw [hp] at h
      simp only [Prod.mk.injEq, Except.error.injEq] at h
      exact h.2.symm
  · intro w h
    unfold ValidTransaction.proceed at h
    cases hp : proceedList exec tx.payload.account_id tx.payload.instructions wsv with
    | ok w' =>
      rw [hp] at h
      simp only [Prod.mk.injEq] at h
      rw [h.2]
    | error e' =>
      rw [hp] at h
      simp at h

/-- Claim C6 witness: a failing two-instruction transaction leaves the
world state 7 untouched. -/
theorem tx_proceed_atomic_witness :
    (ValidTransaction.proceed execW validTxW (7 : Nat)).2 = 7 :=
  (tx_proceed_atomic execW validTxW 7).1 "boom" _ rfl

/-- Claim C7: acceptance, validation (both outcomes) and rejection all
preserve the transaction payload, so the hash of every lifecycle state
equals the hash of the original transaction payload. -/
theorem tx_hash_stable {W : Type} (hf : Payload → TxHash)
    (sverr : Sig → TxHash → Except String Unit)
    (sigCond : AcceptedTransaction → W → Except String Bool)
    (exec : Instruction → AccountId → W → Except String W)
    (permCheck : AccountId → Instruction → W → Except String Unit)
    (genesisAcc : AccountId) (tx : Transaction) (max_instruction_number : Nat)
    (wsv : W) (is_genesis : Bool) :
    ∀ a, AcceptedTransaction.from_transaction hf sverr tx
        max_instruction_number = .ok a →
      AcceptedTransaction.hash hf a = Transaction.hash hf tx ∧
      (∀ v, AcceptedTransaction.validate hf sverr sigCond exec permCheck
          genesisAcc a wsv is_genesis = .ok v →
        ValidTransaction.hash hf v = Transaction.hash hf tx) ∧
      (∀ r, AcceptedTransaction.validate hf sverr sigCond exec permCheck
          genesisAcc a wsv is_genesis = .error r →
        RejectedTransaction.hash hf r = Transaction.hash hf tx) ∧
      (∀ reason, RejectedTransaction.hash hf (AcceptedTransaction.reject a reason) =
        Transaction.hash hf tx) := by
  intro a ha
  have hpay : a.payload = tx.payload := by
    unfold AcceptedTransaction.from_transaction at ha
    cases hc : check_instruction_len tx.payload max_instruction_number with
    | error e => rw [hc] at ha; cases ha
    | ok u =>
      cases u
      rw [hc] at ha
      cases hs : firstSigFail sverr (Transaction.hash hf tx) tx.signatures with
      | some p => rw [hs] at ha; cases ha
      | none =>
        rw [hs] at ha
        cases ha
        rfl
  refine ⟨?_, ?_, ?_, ?_⟩
  · simp [AcceptedTransaction.hash, Transaction.hash, hpay]
  · intro v hv
    unfold AcceptedTransaction.validate at hv
    cases hi : AcceptedTransaction.validate_internal hf sverr sigCond exec
        permCheck genesisAcc a wsv is_genesis with
    | error r => rw [hi] at hv; cases hv
    | ok u =>
      cases u
      rw [hi] at hv
      cases hv
      simp [ValidTransaction.hash, Transaction.hash, hpay]
  · intro r hr
    unfold AcceptedTransaction.validate at hr
    cases hi : AcceptedTransaction.validate_internal hf sverr sigCond exec
        permCheck genesisAcc a wsv is_genesis with
    | error reason =>
      rw [hi] at hr
      cases hr
      simp [RejectedTransaction.hash, AcceptedTransaction.reject,
        Transaction.hash, hpay]
    | ok u => cases u; rw [hi] at hr; cases hr
  · intro reason
    simp [RejectedTransaction.hash, AcceptedTransaction.reject,
      Transaction.hash, hpay]

/-- Claim C7 witness: the hashes of the accepted, valid and rejected
forms of the concrete transaction all equal the original payload hash. -/
theorem tx_hash_stable_witness :
    AcceptedTransaction.hash hfW accTxW = Transaction.hash hfW txW ∧
    ValidTransaction.hash hfW validTxOkW = Transaction.hash hfW txW ∧
    RejectedTransaction.hash hfW
      (AcceptedTransaction.reject accTxW .UnexpectedGenesisAccountSignature) =
      Transaction.hash hfW txW := by
  have h := tx_hash_stable hfW sverrW sigCondW execW permCheckW 99 txW 10
    (0 : Nat) false accTxW rfl
  exact ⟨h.1, h.2.1 validTxOkW rfl, h.2.2.2 .UnexpectedGenesisAccountSignature⟩

end Iroha

namespace Iroha

/-! ## Concrete peer-session inputs -/

/-- Concrete cipher callback: the identity (always succeeds). -/
def cipherIdW : List Byte → Except String (List Byte) := fun l => .ok l

/-- Concrete wire decode callback: the identity (always succeeds). -/
def decodeIdW : List Byte → Except String (List Byte) := fun l => .ok l

/-- A peer session sitting in the Error state with its write half and no
cipher installed. -/
def peerErrW : PeerSt := ⟨.Error, true, false⟩

/-! ## Peer session theorems -/

/-- Decoding undoes the big-endian u32 length prefix. -/
theorem readU32_u32be (n : Nat) (l : List Byte) (h : n < 2 ^ 32) :
    readU32 (u32be n ++ l) = some (n, l) := by
  unfold u32be readU32
  simp only [List.cons_append, List.nil_append]
  congr 2
  omega

/-- Claim C8: a payload of length within (0, MAX_MESSAGE_LENGTH) framed
by `send_message` is decoded back exactly by `read_message`, leaving the
rest of the stream untouched. -/
theorem framing_roundtrip (m rest : List Byte) (h1 : 1 ≤ m.length)
    (h2 : m.length < MAX_MESSAGE_LENGTH) :
    send_message m = .ok (u32be m.length ++ m) ∧
    read_message ((u32be m.length ++ m) ++ rest) = .ok (m, rest) := by
  have hmax : ¬ MAX_MESSAGE_LENGTH < m.length := Nat.not_lt.mpr (Nat.le_of_lt h2)
  have h32 : m.length < 2 ^ 32 := by
    have : MAX_MESSAGE_LENGTH < 2 ^ 32 := by norm_num [MAX_MESSAGE_LENGTH]
    omega
  constructor
  · unfold send_message
    rw [if_neg hmax]
  · unfold read_message
    rw [List.append_assoc, readU32_u32be m.length (m ++ rest) h32]
    dsimp only
    have hcond : 0 < m.length ∧ m.length < MAX_MESSAGE_LENGTH := ⟨h1, h2⟩
    rw [if_pos hcond]
    have hlen : m.length ≤ (m ++ rest).length := by
      simp [List.length_append]
    rw [if_pos hlen, List.take_left, List.drop_left]

/-- Claim C8 witness: round trip of the one-byte message 42 with a
trailing byte 7 left on the stream. -/
theorem framing_roundtrip_witness :
    send_message [42] = .ok (u32be 1 ++ [42]) ∧
    read_message ((u32be 1 ++ [42]) ++ [7]) = .ok ([42], [7]) :=
  framing_roundtrip [42] [7] (by decide) (by decide)

/-- Claim C10: `send_message` accepts every payload up to and including
MAX_MESSAGE_LENGTH bytes (the empty payload too) and emits its frame,
while `read_message` answers Format to every frame whose length field is
0 or at least MAX_MESSAGE_LENGTH — so a frame of length 0 or exactly
MAX_MESSAGE_LENGTH written by one peer is rejected by its receiver. -/
theorem framing_bound_mismatch :
    (∀ data : List Byte, data.length ≤ MAX_MESSAGE_LENGTH →
      send_message data = .ok (u32be data.length ++ data)) ∧
    (∀ size : Nat, ∀ rest : List Byte, size < 2 ^ 32 →
      (size = 0 ∨ MAX_MESSAGE_LENGTH ≤ size) →
      read_message (u32be size ++ rest) = .error .Format) := by
  constructor
  · intro data hle
    unfold send_message
    rw [if_neg (Nat.not_lt.mpr hle)]
  · intro size rest h32 hbad
    unfold read_message
    rw [readU32_u32be size rest h32]
    dsimp only
    have hcond : ¬ (0 < size ∧ size < MAX_MESSAGE_LENGTH) := by
      rcases hbad with h0 | hge
      · intro hc; omega
      · intro hc; omega
    rw [if_neg hcond]

/-- Claim C10 witness: the empty payload and the payload of exactly
MAX_MESSAGE_LENGTH bytes are framed without error, and both resulting
length fields are rejected by the reader. -/
theorem framing_bound_mismatch_witness :
    send_message [] = .ok (u32be 0 ++ []) ∧
    send_message (List.replicate MAX_MESSAGE_LENGTH 0) =
      .ok (u32be MAX_MESSAGE_LENGTH ++ List.replicate MAX_MESSAGE_LENGTH 0) ∧
    read_message (u32be 0 ++ []) = .error .Format ∧
    read_message (u32be MAX_MESSAGE_LENGTH ++ []) = .error .Format := by
  refine ⟨?_, ?_, ?_, ?_⟩
  · simpa using framing_bound_mismatch.1 [] (Nat.zero_le _)
  · simpa using framing_bound_mismatch.1 (List.replicate MAX_MESSAGE_LENGTH 0)
      (by simp)
  · exact framing_bound_mismatch.2 0 [] (by norm_num) (Or.inl rfl)
  · exact framing_bound_mismatch.2 MAX_MESSAGE_LENGTH []
      (by norm_num [MAX_MESSAGE_LENGTH]) (Or.inr (Nat.le_refl _))

/-- Claim C9, counterexample: a peer sitting in the Error state with its
write half alive still encrypts-and-sends a Post (a frame leaves on the
wire) and still decodes-and-forwards an inbound message — the Error
state is not absorbing for the two handlers. -/
theorem peer_error_absorbing_cex :
    peerErrW.state = PState.Error ∧
    (Peer.handlePost cipherIdW true peerErrW [1, 2, 3]).2 =
      some (u32be 3 ++ [1, 2, 3]) ∧
    (Peer.handleMessage cipherIdW decodeIdW peerErrW (.ok [9])).2 = some [9] :=
  ⟨rfl, rfl, rfl⟩

/-- Claim C9, amended: the Post and MessageResult handlers never consult
the session state — their visible output (the frame sent, the message
forwarded) is identical whatever the state, so arriving in Error does
not stop them; only the handshake checks for the Error state. -/
theorem peer_handlers_state_blind {T : Type}
    (enc : List Byte → Except String (List Byte)) (ioOk : Bool)
    (encodedData : List Byte) (dec : List Byte → Except String (List Byte))
    (decodeFn : List Byte → Except String T)
    (msg : Except PeerError (List Byte)) (hw hc : Bool) (s s' : PState) :
    (Peer.handlePost enc ioOk ⟨s, hw, hc⟩ encodedData).2 =
      (Peer.handlePost enc ioOk ⟨s', hw, hc⟩ encodedData).2 ∧
    (Peer.handleMessage dec decodeFn ⟨s, hw, hc⟩ msg).2 =
      (Peer.handleMessage dec decodeFn ⟨s', hw, hc⟩ msg).2 := by
  constructor
  · cases hw with
    | false => rfl
    | true =>
      unfold Peer.handlePost
      cases henc : (if hc then enc encodedData else Except.ok encodedData) with
      | error e => simp [henc]
      | ok data =>
        simp only [henc]
        cases hsend : send_message data with
        | error e => simp [hsend]
        | ok frame =>
          simp only [hsend]
          cases ioOk <;> simp
  · cases msg with
    | error e => rfl
    | ok bytes =>
      unfold Peer.handleMessage
      cases hdec : (if hc then dec bytes else Except.ok bytes) with
      | error e => simp [hdec]
      | ok data =>
        simp only [hdec]
        cases hdc : decodeFn data with
        | error e => simp [hdc]
        | ok t => simp [hdc]

end Iroha
